import Mathlib

/-
  Verification development for the Tydux state-management library.

  The development shallowly embeds the two mutation-commit engines of the
  repository — the newer `Store` variant (src/src/Store.ts) and the parts of
  the `Facade` variant (src/projects/w11k/tydux/src/lib/Facade.ts) plus the
  legacy dispatcher (src/unnamed/part_001) that the claims touch — and proves
  or refutes the specification's claims about them.

  Modelling conventions:
  - JavaScript state values are modelled by an arbitrary Lean type `S`; the
    draft proxy (a prototype-overlay copy of the committed state) is modelled
    by passing the committed value into a working draft cell, so that draft
    writes never touch the committed value, exactly as the overlay keeps the
    original object's own properties untouched.
  - Exceptions are modelled with `Except TyduxError`; `undefined` values with
    `Option`.
  - Mutator ("transition") method bodies are deep-embedded as `MutProg`
    programs over the draft so that nested dispatcher calls, draft writes,
    illegal member attachment and thrown exceptions are all first-class.
  - General recursion through nested mutator calls is bounded by a `fuel`
    counter; running out of fuel models a JavaScript stack overflow.
-/

namespace Tydux

/-- Association-list lookup, modelling a JavaScript property lookup by name
(`mutators[mutName]`, `muts.lookup` on the dispatcher tables). -/
def lookupFn {β : Type} (tbl : List (String × β)) (k : String) : Option β :=
  match tbl with
  | [] => none
  | (a, b) :: t => if a = k then some b else lookupFn t k

/-- JavaScript `String.prototype.indexOf` for a single character: the index of
the first occurrence, or `-1` when absent (used by `createActionFromArguments`
in src/src/Store.ts, lines 39-41). -/
def jsCharIndexOf (s : String) (c : Char) : Int :=
  match s.toList.findIdx? (fun x => x == c) with
  | some i => (i : Int)
  | none => -1

/-- JavaScript `String.prototype.substring(a, b)`: both indices are clamped to
`[0, length]` and swapped when `a > b`; returns the characters in `[lo, hi)`. -/
def jsSubstringJs (s : String) (a b : Int) : String :=
  let n : Int := (s.length : Int)
  let a2 : Nat := (min (max a 0) n).toNat
  let b2 : Nat := (min (max b 0) n).toNat
  let lo := min a2 b2
  let hi := max a2 b2
  String.mk ((s.toList.drop lo).take (hi - lo))

/-- JavaScript `String.prototype.split(",")` over the character list: the
maximal `,`-free segments, with `"".split(",")` yielding `[""]`. -/
def splitOnCommaChars : List Char → List (List Char)
  | [] => [[]]
  | c :: t =>
    if c = ',' then [] :: splitOnCommaChars t
    else
      match splitOnCommaChars t with
      | [] => [[c]]
      | g :: gs => (c :: g) :: gs

/-- JavaScript `String.prototype.trim`: strip leading and trailing
whitespace. -/
def trimChars (cs : List Char) : List Char :=
  ((cs.dropWhile Char.isWhitespace).reverse.dropWhile Char.isWhitespace).reverse

/-- `argsString.split(",").map(a => a.trim())` of src/src/Store.ts, line 41. -/
def jsSplitCommaTrim (s : String) : List String :=
  (splitOnCommaChars s.toList).map (fun cs => String.mk (trimChars cs))

/-- Action object `\x7btype: string, [param: string]: any\x7d` of the Store
variant (src/src/Store.ts, lines 13-17).  The non-`type` properties are kept
as an ordered key/value list; argument values are modelled as integers. -/
structure Action where
  type : String
  params : List (String × Int)
deriving Repr, DecidableEq

/-- `createActionFromArguments` (src/src/Store.ts, lines 38-51): parses the
argument names out of the mutator function's textual source (the segment
between the first `(` and the first `)`, split on `,`, trimmed) and records
each supplied argument under the key `"[i] argName"`.  A missing parsed name
becomes the string `"undefined"`, as JavaScript string-concatenation of an
out-of-range array read would produce. -/
def createActionFromArguments (actionTypeName : String) (fnSrc : String)
    (args : List Int) : Action :=
  let argsString := jsSubstringJs fnSrc (jsCharIndexOf fnSrc '(' + 1) (jsCharIndexOf fnSrc ')')
  let argNames := jsSplitCommaTrim argsString
  let params := args.enum.map
    (fun p => ("[" ++ toString p.1 ++ "] " ++ argNames.getD p.1 "undefined", p.2))
  { type := actionTypeName, params := params }

/-- Commit record `MutatorEvent` (src/src/Store.ts, lines 19-25).  The
`storeId` field is `Option String` because the dispatcher proxy builds events
with `this.storeId` where `this` is the draft this-object (src/src/Store.ts,
line 153), which carries no such property — i.e. `undefined`, modelled `none`. -/
structure MutatorEvent (S : Type) where
  storeId : Option String
  action : Action
  state : S
  duration : Option Nat
deriving DecidableEq

/-- The error conditions the embedded code can raise. -/
inductive TyduxError where
  /-- "mutators must not have instance members" with the offending members. -/
  | instanceMembers (members : List String)
  /-- A transition method returned a non-undefined value. -/
  | wrongReturnType
  /-- An exception thrown by user code inside a transition method. -/
  | userError
  /-- A JavaScript `TypeError` from calling a missing function property. -/
  | notAFunction
  /-- A JavaScript stack overflow (models fuel exhaustion). -/
  | stackOverflow
deriving Repr, DecidableEq

/-- Modelled from the spec: the constant error-message text exported by
error-messages.ts, which is absent from src/; the claims only depend on the
thrown message carrying the offending member names after this fixed text. -/
def mutatorHasInstanceMembers : String := "mutators must not have instance members"

/-- JavaScript `Array.prototype.join(",")`. -/
def joinComma : List String → String
  | [] => ""
  | [x] => x
  | x :: y :: t => x ++ "," ++ joinComma (y :: t)

/-- The message text of each error, as built at the `throw` sites. -/
def errorMessage : TyduxError → String
  | .instanceMembers ms => mutatorHasInstanceMembers ++ ": " ++ joinComma ms
  | .wrongReturnType => "mutators must not return a value"
  | .userError => "Error"
  | .notAFunction => "TypeError: not a function"
  | .stackOverflow => "RangeError: maximum call stack size exceeded"

/-- `failIfInstanceMembersExistExceptState` (src/src/Store.ts, lines 27-36):
takes the own enumerable member names of an object, removes the first
occurrence of `"state"` (the `indexOf`/`splice` pair), and throws an error
listing the remaining members when any are left. -/
def failIfInstanceMembersExistExceptState (keys : List String) :
    Except TyduxError Unit :=
  let members := keys.erase "state"
  if members.length > 0 then .error (.instanceMembers members) else .ok ()

/-- Deep-embedded body of a transition (mutator) method, already applied to
its arguments.  `write f` is a draft-state mutation or reassignment of
`this.state`; `call n` invokes the sibling mutator named `n` through the
dispatcher proxy; `addMember m` attaches an own member named `m` to the
method's `this`-binding; `throwErr` throws; `done` returns `undefined` and
`doneVal` returns some non-undefined value. -/
inductive MutProg (S : Type) : Type where
  | done : MutProg S
  | doneVal : MutProg S
  | throwErr : MutProg S
  | write : (S → S) → MutProg S → MutProg S
  | addMember : String → MutProg S → MutProg S
  | call : String → MutProg S → MutProg S

/-- A mutator method of the commands object: its textual source (as
`Function.prototype.toString` would yield it; only the segment up to the
first `)` matters to the embedding, so bodies are elided) and its body. -/
structure MutatorDef (S : Type) where
  src : String
  body : MutProg S

/-- The shared in-flight draft of one root call tree: `draftState` models
`proxyObj.state` (the single draft every nested call reads and writes) and
`extraMembers` the own members other than `state` attached to the method's
`this`-binding. -/
structure CallCtx (S : Type) where
  draftState : S
  extraMembers : List String
deriving DecidableEq

/-- Runs a mutator body against the shared draft, following the dispatcher
wrapper of src/src/Store.ts, lines 131-166: a nested `call` looks the sibling
mutator up, runs its body on the same `CallCtx` (nested calls re-enter
`mutateState` with `mutatorCallStackCount > 0`, so `isRootCall` is false and
they neither take a fresh snapshot nor commit), then applies the per-call
post checks `failIfNotUndefined(result)` and
`failIfInstanceMembersExistExceptState(thisObj)` (lines 148-149).  The
returned Bool records whether the body returned a non-undefined value.
`failIfNotUndefined` lives in utils.ts, absent from src/; it is modelled from
the spec as throwing exactly when the returned value is not undefined. -/
def runBody {S : Type} (muts : List (String × MutatorDef S)) :
    Nat → MutProg S → CallCtx S → Except TyduxError (CallCtx S × Bool)
  | 0, _, _ => .error .stackOverflow
  | _ + 1, .done, ctx => .ok (ctx, false)
  | _ + 1, .doneVal, ctx => .ok (ctx, true)
  | _ + 1, .throwErr, _ => .error .userError
  | fuel + 1, .write f k, ctx => runBody muts fuel k ⟨f ctx.draftState, ctx.extraMembers⟩
  | fuel + 1, .addMember m k, ctx =>
    runBody muts fuel k ⟨ctx.draftState, ctx.extraMembers ++ [m]⟩
  | fuel + 1, .call n k, ctx =>
    match lookupFn muts n with
    | none => .error .notAFunction
    | some d =>
      match runBody muts fuel d.body ctx with
      | .error e => .error e
      | .ok (ctx2, rv) =>
        if rv then .error .wrongReturnType
        else
          match failIfInstanceMembersExistExceptState ctx2.extraMembers with
          | .error e => .error e
          | .ok _ => runBody muts fuel k ctx2

/-- Follows the spec's words (§8 nested-call merging): the combined effect of
all draft writes of a call tree, with nested transition calls contributing
their writes to the single shared draft and everything else (member
bookkeeping, dispatcher checks) invisible; `none` when the tree throws. -/
def specRun {S : Type} (muts : List (String × MutatorDef S)) :
    Nat → MutProg S → S → Option S
  | 0, _, _ => none
  | _ + 1, .done, s => some s
  | _ + 1, .doneVal, s => some s
  | _ + 1, .throwErr, _ => none
  | fuel + 1, .write f k, s => specRun muts fuel k (f s)
  | fuel + 1, .addMember _ k, s => specRun muts fuel k s
  | fuel + 1, .call n k, s =>
    match lookupFn muts n with
    | none => none
    | some d =>
      match specRun muts fuel d.body s with
      | none => none
      | some s2 => specRun muts fuel k s2

/-- The observable state of one `Store` instance (src/src/Store.ts, lines
53-81): the committed state `_state`, whether it was deep-frozen on commit
(`frozen` stands in for the `deepFreeze` wrapping applied under development
mode, line 101), the re-entrancy counter, and the list of commit records
pushed into `mutatorEventsSubject` so far. -/
structure StoreModel (S : Type) where
  storeId : String
  _state : S
  frozen : Bool
  mutatorCallStackCount : Nat
  events : List (MutatorEvent S)
deriving DecidableEq

/-- `setState` (src/src/Store.ts, lines 100-102): stores the new committed
state, deep-frozen exactly when development mode is enabled. -/
def setState {S : Type} (dev : Bool) (store : StoreModel S) (s : S) : StoreModel S :=
  { store with _state := s, frozen := dev }

/-- `processMutator` (src/src/Store.ts, lines 95-98): commit — store the new
state and emit the commit record. -/
def processMutator {S : Type} (dev : Bool) (store : StoreModel S)
    (ev : MutatorEvent S) : StoreModel S :=
  { setState dev store ev.state with events := store.events ++ [ev] }

/-- A root-level dispatcher call (src/src/Store.ts: the wrapper built by
`createMutatorsProxy`, lines 131-166, running through `mutateState`, lines
104-120, with `mutatorCallStackCount = 0`).  The draft starts from the
committed state (`createProxy(this.state)` / `proxyObj.state = oldState`);
the body runs with the supplied arguments; on success the two post-call
checks run and one commit record is processed; on a throw the exception
reaches the caller through `mutateState`'s bare try/finally (which only
restores the counter) and nothing is committed.  The event's `storeId` is
`none` because line 153 reads `this.storeId` from the draft this-object,
where it is undefined; its `duration` is measured only in development mode
(time itself is not modelled, so the measured value is 0). -/
def dispatchRoot {S : Type} (dev : Bool) (muts : List (String × MutatorDef S))
    (fuel : Nat) (name : String) (args : List Int) (store : StoreModel S) :
    StoreModel S × Option TyduxError :=
  match lookupFn muts name with
  | none => (store, some .notAFunction)
  | some d =>
    match runBody muts fuel d.body ⟨store._state, []⟩ with
    | .error e => (store, some e)
    | .ok (ctx2, rv) =>
      if rv then (store, some .wrongReturnType)
      else
        match failIfInstanceMembersExistExceptState ctx2.extraMembers with
        | .error e => (store, some e)
        | .ok _ =>
          let ev : MutatorEvent S :=
            { storeId := none,
              action := createActionFromArguments name d.src args,
              state := ctx2.draftState,
              duration := if dev then some 0 else none }
          (processMutator dev store ev, none)

/-- The `Store` constructor (src/src/Store.ts, lines 65-81): first processes
the `@@INIT` event (built with the real `this.storeId` of the store, line
69-73), then runs `failIfInstanceMembersExistExceptState(mutatorInstance)`
over the commands object's own member names, failing construction when it
throws.  The dispatcher proxy construction and `delete (this.mutate).state`
have no further observable effect in the model. -/
def mkStore {S : Type} (dev : Bool) (storeId : String)
    (mutatorMembers : List String) (_muts : List (String × MutatorDef S))
    (state : S) : Except TyduxError (StoreModel S) :=
  let initEvent : MutatorEvent S :=
    { storeId := some storeId, action := { type := "@@INIT", params := [] },
      state := state, duration := none }
  let st0 : StoreModel S :=
    processMutator dev
      { storeId := storeId, _state := state, frozen := false,
        mutatorCallStackCount := 0, events := [] } initEvent
  match failIfInstanceMembersExistExceptState mutatorMembers with
  | .error e => .error e
  | .ok _ => .ok st0

/-- `checkMutatorReturnType` of the legacy dispatcher (src/unnamed/part_001,
lines 49-63), restricted to synchronous returns (the promise branch defers the
same check to the promise's resolution and is not exercised by the claims):
`undefined` passes through, anything else throws. -/
def checkMutatorReturnType (r : Option Int) : Except TyduxError (Option Int) :=
  match r with
  | none => .ok none
  | some _ => .error .wrongReturnType

/-- The return-value post-processing of the legacy dispatcher
(src/unnamed/part_001, line 184): the check runs only when development mode
is enabled, otherwise the result passes through untouched. -/
def oldDispatchReturnFilter (dev : Bool) (r : Option Int) :
    Except TyduxError (Option Int) :=
  if dev then checkMutatorReturnType r else .ok r

/-
  Facade side: action-name router, ownership-gated reducer, lifecycle,
  change-notification streams (src/projects/w11k/tydux/src/lib/Facade.ts and
  the legacy select of src/unnamed/part_001).
-/

/-- `Facade.createActionName` (Facade.ts, lines 242-244): the template
literal producing the action type of a facade command. -/
def createActionName (facadeId mutatorMethodName : String) : String :=
  "[" ++ facadeId ++ "] " ++ mutatorMethodName

/-- First index at which `pat` occurs as a contiguous sublist of the list, if
any (the search core of JavaScript `String.prototype.indexOf` for strings). -/
def listFirstMatch (pat : List Char) : List Char → Option Nat
  | [] => if pat.isEmpty then some 0 else none
  | c :: t =>
    if List.isPrefixOf pat (c :: t) then some 0
    else (listFirstMatch pat t).map (fun i => i + 1)

/-- JavaScript `String.prototype.indexOf` for a string pattern: first
occurrence index or `-1`. -/
def jsStrIndexOf (s pat : String) : Int :=
  match listFirstMatch pat.toList s.toList with
  | some i => (i : Int)
  | none => -1

/-- Boolean string-prefix test, stated over the character lists. -/
def strIsPre (p s : String) : Bool :=
  List.isPrefixOf p.toList s.toList

/-- An action dispatched through the facade's mount point: `type` is `none`
when the JavaScript `type` field holds a non-string value; the payload is the
argument list. -/
structure FAction where
  type : Option String
  payload : List Int
deriving Repr, DecidableEq

/-- `Facade.isActionForThisFacade` (Facade.ts, lines 308-314): false when
`action.type` is not a string, otherwise `action.type.indexOf("[id] ") === 0`. -/
def isActionForThisFacade (facadeId : String) (actionType : Option String) : Bool :=
  match actionType with
  | none => false
  | some t => jsStrIndexOf t ("[" ++ facadeId ++ "] ") == 0

/-- Modelled from the spec: the root state tree shared by all facades.
store.ts (the mount-point module) is absent from src/; per the spec (§4.3) a
mount point addresses a named slice path of one root object, with
`extractState` a pure projection and `setState` an immutable replacement of
the sub-tree at that path.  The root is an ordered path/value list. -/
def extractState {υ : Type} (slicePath : String) (root : List (String × υ)) :
    Option υ :=
  lookupFn root slicePath

/-- Modelled from the spec: `MountPoint.setState` — replace the value at the
slice path (first binding), appending the binding when the path is absent. -/
def setStateAt {υ : Type} (slicePath : String) (root : List (String × υ))
    (v : υ) : List (String × υ) :=
  match root with
  | [] => [(slicePath, v)]
  | (p, w) :: t =>
    if p = slicePath then (p, v) :: t else (p, w) :: setStateAt slicePath t v

/-- Modelled from the spec: `createReducerFromCommandsInvoker` of commands.ts
(absent from src/).  Per the spec's action format `"[ownerId] methodName"`
(§4.2, §6) and the commands contract, the reducer invokes the facade's
command whose name is the action type minus the `"[ownerId] "` prefix,
passing the action's payload against the slice state; invoking a missing
command is a thrown `TypeError` (a JavaScript call of an undefined member).
A slice not yet present at the mount point reads as the default value. -/
def commandsInvokerReducer {υ : Type} (facadeId : String)
    (commands : List (String × (υ → List Int → υ))) (dflt : υ)
    (pre : Option υ) (action : FAction) : Except TyduxError υ :=
  let t := action.type.getD ""
  let cmdName := String.mk (t.toList.drop ("[" ++ facadeId ++ "] ").length)
  match lookupFn commands cmdName with
  | none => .error .notAFunction
  | some f => .ok (f (pre.getD dflt) action.payload)

/-- The reducer a facade registers into the shared chain
(`Facade.createReducerFromCommandsInvoker`, Facade.ts, lines 292-306): it
projects the slice out of the root (`createProxy(extractState(state))` — a
value copy), returns the root unchanged when the facade is destroyed or the
action is not its own, and otherwise writes the mutator reducer's output back
into the root at the mount point's path.  The inner mutator reducer is kept
abstract here (any `mutatorReducer` function), since it comes from
commands.ts. -/
def facadeReducer {υ : Type} (facadeId slicePath : String) (destroyed : Bool)
    (mutatorReducer : Option υ → FAction → Except TyduxError υ)
    (root : List (String × υ)) (action : FAction) :
    Except TyduxError (List (String × υ)) :=
  let preLocalState := extractState slicePath root
  if destroyed || !(isActionForThisFacade facadeId action.type) then .ok root
  else
    match mutatorReducer preLocalState action with
    | .error e => .error e
    | .ok postLocalState => .ok (setStateAt slicePath root postLocalState)

/-- The three shapes an initial-state value can take (Facade.ts, lines 38-44):
a literal, a zero-argument producer, or a promise (modelled by its eventual
resolution value). -/
inductive InitialStateValue (σ : Type) : Type where
  | value : σ → InitialStateValue σ
  | producer : (Unit → σ) → InitialStateValue σ
  | promise : σ → InitialStateValue σ

/-- The observable state of one facade instance (Facade.ts): the mount
point's sub-state, the facade's `_state`, the buffered-changes counter, the
not-yet-run promise continuation, how often a producer initial value was
invoked, the queued microtask deliveries and the emissions of
`reduxStoreStateSubject`, plus the lifecycle flags touched by `destroy()`. -/
structure FacadeModel (σ : Type) where
  facadeId : String
  mountState : σ
  _state : σ
  bufferedStateChanges : Int
  pendingInitialState : Option σ
  producerCalls : Nat
  deliveryQueue : List σ
  stateEmissions : List σ
  stateSubjectCompleted : Bool
  mountSubscribed : Bool
  freeSlicePathCalls : Nat
  destroyedState : Bool
  destroyedEmissions : Nat
  registered : Bool
deriving DecidableEq

/-- Dispatching the `@@SET_STATE` seeding action (Facade.ts, lines 140-149
run by the mount point's reducer chain, followed by the mount point's
subscriber notifications): the seeding reducer stores the value, emits it on
the state subject and writes it into the mount point; when the facade's own
mount-point subscription (lines 171-181) is already installed, that
subscription then buffers one change (a fresh shallow copy of the sub-state,
value-equal to it), stores it and queues its delivery on the microtask
queue. -/
def dispatchInitialStateAction {σ : Type} (m : FacadeModel σ) (v : σ) :
    FacadeModel σ :=
  let m1 := { m with _state := v, stateEmissions := m.stateEmissions ++ [v],
                     mountState := v }
  if m1.mountSubscribed then
    { m1 with bufferedStateChanges := m1.bufferedStateChanges + 1,
              _state := v,
              deliveryQueue := m1.deliveryQueue ++ [v] }
  else m1

/-- The `Facade` constructor (Facade.ts, lines 101-184), with the mount
point's pre-existing sub-state `mountPre`:  it reads and emits the current
sub-state (lines 134-135); then, when an initial-state value is given, it
registers the seeding reducer and either (promise) increments the
buffered-changes counter and leaves the dispatch to the promise continuation,
or (producer) invokes the producer exactly once and dispatches synchronously,
or (literal) dispatches synchronously; only after that does it subscribe to
the mount point (line 171), so synchronous seeding never passes through the
subscription. -/
def mkFacade {σ : Type} (facadeId : String) (mountPre : σ)
    (initialState : Option (InitialStateValue σ)) : FacadeModel σ :=
  let m0 : FacadeModel σ :=
    { facadeId := facadeId, mountState := mountPre, _state := mountPre,
      bufferedStateChanges := 0, pendingInitialState := none,
      producerCalls := 0, deliveryQueue := [], stateEmissions := [mountPre],
      stateSubjectCompleted := false, mountSubscribed := false,
      freeSlicePathCalls := 0, destroyedState := false,
      destroyedEmissions := 0, registered := true }
  let m1 :=
    match initialState with
    | none => m0
    | some (.promise v) =>
      { m0 with bufferedStateChanges := m0.bufferedStateChanges + 1,
                pendingInitialState := some v }
    | some (.value v) => dispatchInitialStateAction m0 v
    | some (.producer f) =>
      dispatchInitialStateAction { m0 with producerCalls := 1 } (f ())
  { m1 with mountSubscribed := true }

/-- The resolution of a promise-valued initial state (Facade.ts, lines
153-159): the `.then` continuation dispatches the seeding action, then the
`.finally` continuation decrements the buffered-changes counter. -/
def resolveInitialStatePromise {σ : Type} (m : FacadeModel σ) : FacadeModel σ :=
  match m.pendingInitialState with
  | none => m
  | some v =>
    let m1 := dispatchInitialStateAction m v
    { m1 with bufferedStateChanges := m1.bufferedStateChanges - 1,
              pendingInitialState := none }

/-- Running every queued delivery microtask (Facade.ts, lines 177-180): each
decrements the buffered-changes counter and emits its captured state on the
state subject, in queue order. -/
def drainDeliveryQueue {σ : Type} (m : FacadeModel σ) : FacadeModel σ :=
  { m with
    bufferedStateChanges := m.bufferedStateChanges - m.deliveryQueue.length,
    stateEmissions := m.stateEmissions ++ m.deliveryQueue,
    deliveryQueue := [] }

/-- `Facade.hasBufferedStateChanges` (Facade.ts, lines 216-218). -/
def hasBufferedStateChanges {σ : Type} (m : FacadeModel σ) : Bool :=
  m.bufferedStateChanges > 0

/-- `Facade.destroy` (Facade.ts, lines 190-197), effect for effect and in
source order: call the mount-point unsubscribe function, call
`freeSlicePath()`, set the destroyed flag, complete the state subject (a
second rxjs `complete()` is a no-op, so the flag just stays set), emit on the
destroyed subject — which is never completed and carries no guard, so every
call emits — and deregister from the global facade registry.  There is no
idempotence guard anywhere in the body. -/
def destroy {σ : Type} (m : FacadeModel σ) : FacadeModel σ :=
  { m with mountSubscribed := false,
           freeSlicePathCalls := m.freeSlicePathCalls + 1,
           destroyedState := true,
           stateSubjectCompleted := true,
           destroyedEmissions := m.destroyedEmissions + 1,
           registered := false }

/-
  Change-notification stream: the legacy `Store.select` (src/unnamed/part_001,
  lines 137-155) and the reference-tracked delivery of Facade.ts, lines
  171-181.
-/

/-- A JavaScript runtime value as far as `===` can observe it: `nil` models
null/undefined, `prim` a primitive (compared by value), `obj` a non-array
object (compared by reference `r`) and `arr` an array (compared by reference,
but carrying its elements so a shallow comparison can read them). -/
inductive JsVal : Type where
  | nil : JsVal
  | prim : Int → JsVal
  | obj : Nat → JsVal
  | arr : Nat → List JsVal → JsVal

/-- JavaScript `===`: value equality on primitives, reference equality on
objects and arrays. -/
def jsEq : JsVal → JsVal → Bool
  | .nil, .nil => true
  | .prim a, .prim b => a == b
  | .obj r, .obj s => r == s
  | .arr r _, .arr s _ => r == s
  | _, _ => false

/-- `_.isNil`: true for null/undefined. -/
def jsIsNil : JsVal → Bool
  | .nil => true
  | _ => false

/-- Modelled from the spec: `isShallowEquals` of utils.ts (absent from src/)
— shallow element-wise identity comparison of two arrays (§4.4: "shallow
element-wise comparison when the prior and new selected values are both
ordered sequences"): equal lengths and `===` on each element pair. -/
def isShallowEquals : List JsVal → List JsVal → Bool
  | [], [] => true
  | a :: as2, b :: bs => jsEq a b && isShallowEquals as2 bs
  | _, _ => false

/-- The `distinctUntilChanged` comparator of the legacy `Store.select`
(src/unnamed/part_001, lines 142-148): shallow element-wise comparison when
both values are arrays, `===` otherwise. -/
def selectCompare : JsVal → JsVal → Bool
  | .arr _ ea, .arr _ eb => isShallowEquals ea eb
  | a, b => jsEq a b

/-- The tail of `distinctUntilChanged`: drop each element equal (under `cmp`)
to the last emitted one, emit it and switch the comparison basis otherwise. -/
def dedupFrom {α : Type} (cmp : α → α → Bool) (last : α) : List α → List α
  | [] => []
  | x :: xs => if cmp last x then dedupFrom cmp last xs else x :: dedupFrom cmp x xs

/-- `distinctUntilChanged cmp` over a finite emission list: the first element
is always emitted, later ones only when they differ from the last emission. -/
def dedup {α : Type} (cmp : α → α → Bool) : List α → List α
  | [] => []
  | x :: xs => x :: dedupFrom cmp x xs

/-- `Store.select` over a finite list of committed states
(src/unnamed/part_001, lines 137-149): map the selector over the event
states, then de-duplicate with `selectCompare`.  `Facade.select` routes
through `selectToObservable` of utils.ts (absent from src/), documented in
Facade.ts, lines 224-227, as the same identity-based de-duplication. -/
def selectList {σ : Type} (events : List σ) (sel : σ → JsVal) : List JsVal :=
  dedup selectCompare (events.map sel)

/-- `Store.selectNonNil` (src/unnamed/part_001, lines 151-155): `select`
followed by a non-nil filter. -/
def selectNonNilList {σ : Type} (events : List σ) (sel : σ → JsVal) : List JsVal :=
  (selectList events sel).filter (fun v => !(jsIsNil v))

/-- No two consecutive elements of the list are related by `cmp`. -/
def consecOk {α : Type} (cmp : α → α → Bool) : List α → Bool
  | [] => true
  | [_] => true
  | a :: b :: t => !(cmp a b) && consecOk cmp (b :: t)

/-- The reference-allocation state of the facade's mount-point subscription
(Facade.ts, lines 171-181): `delivered` is the list of state objects handed
to `reduxStoreStateSubject.next` so far, `nextRef` the next fresh object
reference. -/
structure NotifyModel where
  nextRef : Nat
  delivered : List JsVal

/-- One mount-point change notification (Facade.ts, lines 171-181):
`Object.assign(\x7b\x7d, this.mountPoint.getState())` allocates a fresh
shallow copy — a brand-new object reference, whatever its value — which is
stored and later delivered on the state subject. -/
def onMountPointChange (m : NotifyModel) : NotifyModel :=
  { nextRef := m.nextRef + 1, delivered := m.delivered ++ [JsVal.obj m.nextRef] }

/-- `n` successive mount-point change notifications. -/
def notifyN : Nat → NotifyModel → NotifyModel
  | 0, m => m
  | n + 1, m => notifyN n (onMountPointChange m)

/-- A facade's subscription state before any notification. -/
def initNotifyModel : NotifyModel := { nextRef := 0, delivered := [] }

/-
  Theorems.
-/

/-- Refinement of the dispatcher machinery by the spec-level draft semantics:
whenever a mutator body runs to completion through the dispatcher (with its
nested calls, per-call checks and member bookkeeping), the final draft state
is the plain combined effect of all its writes, nested ones included, on the
single shared draft. -/
theorem runBody_specRun {S : Type} (muts : List (String × MutatorDef S)) :
    ∀ (fuel : Nat) (p : MutProg S) (ctx ctx2 : CallCtx S) (rv : Bool),
    runBody muts fuel p ctx = .ok (ctx2, rv) →
    specRun muts fuel p ctx.draftState = some ctx2.draftState := by
  intro fuel
  induction fuel with
  | zero =>
    intro p ctx ctx2 rv h
    simp [runBody] at h
  | succ n ih =>
    intro p ctx ctx2 rv h
    cases p with
    | done =>
      simp [runBody] at h
      simp [specRun, h.1]
    | doneVal =>
      simp [runBody] at h
      simp [specRun, h.1]
    | throwErr =>
      simp [runBody] at h
    | write f k =>
      simp only [runBody] at h
      simpa [specRun] using ih k ⟨f ctx.draftState, ctx.extraMembers⟩ ctx2 rv h
    | addMember m k =>
      simp only [runBody] at h
      simpa [specRun] using ih k ⟨ctx.draftState, ctx.extraMembers ++ [m]⟩ ctx2 rv h
    | call nm k =>
      simp only [runBody] at h
      cases hl : lookupFn muts nm with
      | none => simp [hl] at h
      | some d =>
        simp only [hl] at h
        cases hr : runBody muts n d.body ctx with
        | error e => simp [hr] at h
        | ok pr =>
          obtain ⟨ctxm, rvm⟩ := pr
          simp only [hr] at h
          cases rvm with
          | true => simp at h
          | false =>
            simp only [Bool.false_eq_true, if_false] at h
            cases hm : failIfInstanceMembersExistExceptState ctxm.extraMembers with
            | error e => simp [hm] at h
            | ok u =>
              simp only [hm] at h
              have h1 := ih d.body ctx ctxm false hr
              have h2 := ih k ctxm ctx2 rv h
              simp [specRun, hl, h1, h2]

/-- C1: a transition (mutator) method that throws during a root-level
dispatcher call leaves the store's committed state exactly as it was, emits
no commit record, and hands the thrown exception back to the caller: the
whole call returns the unchanged store paired with the body's own error. -/
theorem mutatorThrowAbortsCommit {S : Type} (dev : Bool)
    (muts : List (String × MutatorDef S)) (fuel : Nat) (name : String)
    (args : List Int) (store : StoreModel S) (d : MutatorDef S) (e : TyduxError)
    (hlookup : lookupFn muts name = some d)
    (hthrow : runBody muts fuel d.body ⟨store._state, []⟩ = .error e) :
    dispatchRoot dev muts fuel name args store = (store, some e) := by
  simp [dispatchRoot, hlookup, hthrow]

/-- C1 witness: the spec's own scenario — a mutator sets the draft's value to
1 and then throws; afterwards the committed state is still 0 and no event
beyond the store's prior ones was emitted. -/
theorem mutatorThrowAbortsCommitWitness :
    dispatchRoot false [("mut1", ⟨"mut1()", .write (fun _ => (1 : Int)) .throwErr⟩)]
      5 "mut1" [] ⟨"", 0, false, 0, []⟩
    = (⟨"", 0, false, 0, []⟩, some .userError) :=
  mutatorThrowAbortsCommit false
    [("mut1", ⟨"mut1()", .write (fun _ => (1 : Int)) .throwErr⟩)]
    5 "mut1" [] ⟨"", 0, false, 0, []⟩
    ⟨"mut1()", .write (fun _ => (1 : Int)) .throwErr⟩ .userError rfl rfl

/-- C2: a successful root-level dispatcher call of a transition method that
(possibly) calls further transition methods appends exactly one commit record
to the store's event list, and that record's state — which is also the new
committed state — is the combined effect (`specRun`) of all the call tree's
draft writes on the one shared draft created by the root call. -/
theorem nestedCallsCommitOnce {S : Type} (dev : Bool)
    (muts : List (String × MutatorDef S)) (fuel : Nat) (name : String)
    (args : List Int) (store st2 : StoreModel S) (d : MutatorDef S)
    (hlookup : lookupFn muts name = some d)
    (hdisp : dispatchRoot dev muts fuel name args store = (st2, none)) :
    ∃ ev : MutatorEvent S,
      st2.events = store.events ++ [ev] ∧
      specRun muts fuel d.body store._state = some ev.state ∧
      st2._state = ev.state := by
  simp only [dispatchRoot, hlookup] at hdisp
  cases hr : runBody muts fuel d.body ⟨store._state, []⟩ with
  | error e => simp [hr] at hdisp
  | ok pr =>
    obtain ⟨ctx2, rv⟩ := pr
    simp only [hr] at hdisp
    cases rv with
    | true => simp at hdisp
    | false =>
      simp only [Bool.false_eq_true, if_false] at hdisp
      cases hm : failIfInstanceMembersExistExceptState ctx2.extraMembers with
      | error e => simp [hm] at hdisp
      | ok u =>
        simp only [hm, Prod.mk.injEq] at hdisp
        obtain ⟨hst, -⟩ := hdisp
        subst hst
        refine ⟨⟨none, createActionFromArguments name d.src args,
          ctx2.draftState, if dev then some 0 else none⟩, rfl, ?_, rfl⟩
        exact runBody_specRun muts fuel d.body ⟨store._state, []⟩ ctx2 false hr

/-- C2 witness: `m1` increments the draft and then calls `m2`, which doubles
it; from committed state 3 the single emitted commit record carries state
`(3+1)*2 = 8` — the combined effect of both writes on the shared draft (an
isolated nested snapshot would have produced 6 or dropped a write). -/
theorem nestedCallsCommitOnceWitness :
    ∃ ev : MutatorEvent Int,
      (⟨"TestStore", 8, false, 0,
        [⟨none, createActionFromArguments "m1" "m1()" [], 8, none⟩]⟩ :
          StoreModel Int).events = [] ++ [ev] ∧
      specRun
        [("m1", ⟨"m1()", .write (fun s => s + 1) (.call "m2" .done)⟩),
         ("m2", ⟨"m2()", .write (fun s => s * 2) .done⟩)] 5
        (MutProg.write (fun s => s + 1) (.call "m2" .done)) 3 = some ev.state ∧
      (⟨"TestStore", 8, false, 0,
        [⟨none, createActionFromArguments "m1" "m1()" [], 8, none⟩]⟩ :
          StoreModel Int)._state = ev.state :=
  nestedCallsCommitOnce false
    [("m1", ⟨"m1()", .write (fun s => s + 1) (.call "m2" .done)⟩),
     ("m2", ⟨"m2()", .write (fun s => s * 2) .done⟩)]
    5 "m1" [] ⟨"TestStore", 3, false, 0, []⟩
    ⟨"TestStore", 8, false, 0,
      [⟨none, createActionFromArguments "m1" "m1()" [], 8, none⟩]⟩
    ⟨"m1()", .write (fun s => s + 1) (.call "m2" .done)⟩ rfl rfl

/-- A member of a list occurs inside its comma-join. -/
theorem mem_joinComma_infix :
    ∀ (ms : List String) (m : String), m ∈ ms →
    ∃ p q, joinComma ms = p ++ m ++ q := by
  intro ms
  induction ms with
  | nil => intro m hm; cases hm
  | cons x t ih =>
    intro m hm
    rcases List.mem_cons.mp hm with rfl | hm2
    · cases t with
      | nil => exact ⟨"", "", by simp [joinComma]⟩
      | cons y t2 =>
        exact ⟨"", "," ++ joinComma (y :: t2),
          by simp [joinComma, String.append_assoc]⟩
    · cases t with
      | nil => cases hm2
      | cons y t2 =>
        obtain ⟨p, q, hpq⟩ := ih m hm2
        refine ⟨x ++ "," ++ p, q, ?_⟩
        simp [joinComma, hpq, String.append_assoc]

/-- `failIfInstanceMembersExistExceptState` throws, listing every non-`state`
member, whenever the key list holds a member other than `state`. -/
theorem failIfInstanceMembers_error (keys : List String) (m : String)
    (hmem : m ∈ keys) (hne : m ≠ "state") :
    failIfInstanceMembersExistExceptState keys
      = .error (.instanceMembers (keys.erase "state"))
    ∧ m ∈ keys.erase "state" := by
  have hm2 : m ∈ keys.erase "state" := (List.mem_erase_of_ne hne).mpr hmem
  have hl : 0 < (keys.erase "state").length := List.length_pos_of_mem hm2
  exact ⟨by simp [failIfInstanceMembersExistExceptState, hl], hm2⟩

/-- The thrown message names each offending member. -/
theorem instanceMembers_message_names (ms : List String) (m : String)
    (hm : m ∈ ms) :
    ∃ p q, errorMessage (.instanceMembers ms) = p ++ m ++ q := by
  obtain ⟨p, q, hpq⟩ := mem_joinComma_infix ms m hm
  exact ⟨mutatorHasInstanceMembers ++ ": " ++ p, q,
    by simp [errorMessage, hpq, String.append_assoc]⟩

/-- C5: attaching any own member other than `state` to the commands/mutators
object throws an error whose message names the offending member — both when
the member is present at construction time (the constructor's
`failIfInstanceMembersExistExceptState(mutatorInstance)` fails the `Store`
constructor) and when a transition-method call attaches it as a side effect
(the post-call check aborts the dispatch with the same error, committing
nothing). -/
theorem illegalInstanceMemberThrowsNamed {S : Type} (dev : Bool) (sid : String)
    (mutatorMembers : List String) (muts : List (String × MutatorDef S))
    (st : S) (fuel : Nat) (name : String) (args : List Int)
    (store : StoreModel S) (d : MutatorDef S) (ctx2 : CallCtx S) (m : String) :
    (m ∈ mutatorMembers → m ≠ "state" →
      ∃ ms, mkStore dev sid mutatorMembers muts st = .error (.instanceMembers ms)
        ∧ m ∈ ms ∧ ∃ p q, errorMessage (.instanceMembers ms) = p ++ m ++ q)
    ∧ (lookupFn muts name = some d →
       runBody muts fuel d.body ⟨store._state, []⟩ = .ok (ctx2, false) →
       m ∈ ctx2.extraMembers → m ≠ "state" →
      ∃ ms, dispatchRoot dev muts fuel name args store
          = (store, some (.instanceMembers ms))
        ∧ m ∈ ms ∧ ∃ p q, errorMessage (.instanceMembers ms) = p ++ m ++ q) := by
  constructor
  · intro hmem hne
    obtain ⟨hfail, hm2⟩ := failIfInstanceMembers_error mutatorMembers m hmem hne
    exact ⟨mutatorMembers.erase "state", by simp [mkStore, hfail], hm2,
      instanceMembers_message_names _ m hm2⟩
  · intro hlookup hrun hmem hne
    obtain ⟨hfail, hm2⟩ := failIfInstanceMembers_error ctx2.extraMembers m hmem hne
    exact ⟨ctx2.extraMembers.erase "state",
      by simp [dispatchRoot, hlookup, hrun, hfail], hm2,
      instanceMembers_message_names _ m hm2⟩

/-- C5 witness: a commands object constructed with own member `abc` fails the
`Store` constructor, and a mutator that attaches `abc` to `this` during a
call fails the dispatch; both errors name `abc`. -/
theorem illegalInstanceMemberThrowsNamedWitness :
    (∃ ms, mkStore false "myStore" ["abc"] ([] : List (String × MutatorDef Int)) 0
        = .error (.instanceMembers ms)
      ∧ "abc" ∈ ms ∧ ∃ p q, errorMessage (.instanceMembers ms) = p ++ "abc" ++ q)
    ∧ (∃ ms, dispatchRoot false [("mut", ⟨"mut()", .addMember "abc" .done⟩)] 5
          "mut" [] (⟨"myStore", 0, false, 0, []⟩ : StoreModel Int)
        = (⟨"myStore", 0, false, 0, []⟩, some (.instanceMembers ms))
      ∧ "abc" ∈ ms ∧ ∃ p q, errorMessage (.instanceMembers ms) = p ++ "abc" ++ q) :=
  ⟨(illegalInstanceMemberThrowsNamed false "myStore" ["abc"]
      ([] : List (String × MutatorDef Int)) 0 5 "x" [] ⟨"myStore", 0, false, 0, []⟩
      ⟨"", .done⟩ ⟨0, []⟩ "abc").1 (by simp) (by decide),
   (illegalInstanceMemberThrowsNamed false "myStore" []
      [("mut", ⟨"mut()", .addMember "abc" .done⟩)] 0 5 "mut" []
      ⟨"myStore", 0, false, 0, []⟩ ⟨"mut()", .addMember "abc" .done⟩
      ⟨0, ["abc"]⟩ "abc").2 rfl rfl (by simp) (by decide)⟩

/-- The development-mode-independent core of a commit record: everything but
the measured duration. -/
def evCore {S : Type} (ev : MutatorEvent S) : Option String × Action × S :=
  (ev.storeId, ev.action, ev.state)

/-- A store whose mutator `bad` returns a value and whose committed state is 0. -/
def c4Store : StoreModel Int := ⟨"devStore", 0, false, 0, []⟩

/-- A commands table with a mutator returning a (non-undefined) value. -/
def c4RetMuts : List (String × MutatorDef Int) := [("bad", ⟨"bad()", .doneVal⟩)]

/-- A commands table with a mutator attaching an own member `x` to `this`. -/
def c4MemberMuts : List (String × MutatorDef Int) :=
  [("leak", ⟨"leak()", .addMember "x" .done⟩)]

/-- C4 counterexample: with the development-mode flag off, the post-call
contract checks of src/src/Store.ts still run — a value-returning mutator and
a member-attaching mutator both make the dispatch throw — contradicting the
claim that the checks are skipped when the flag is off. -/
theorem devModeOffChecksStillRun :
    dispatchRoot false c4RetMuts 5 "bad" [] c4Store
      = (c4Store, some .wrongReturnType)
    ∧ dispatchRoot false c4MemberMuts 5 "leak" [] c4Store
      = (c4Store, some (.instanceMembers ["x"])) :=
  ⟨rfl, rfl⟩

/-- C4 (amended): in the current Store variant (src/src/Store.ts) the
post-call contract checks — return no value, no own member besides `state` —
run and throw on violation regardless of the development-mode flag; the flag
controls only deep-freezing of the committed state and duration measurement
(the two dispatch outcomes agree on the error, the committed state and every
commit record up to its `duration` field).  In the legacy dispatcher
(src/unnamed/part_001) the return-type check alone is gated by the flag and
is skipped when it is off. -/
theorem devModeGatesOnlyFreezeAndDuration :
    (∀ dev : Bool, dispatchRoot dev c4RetMuts 5 "bad" [] c4Store
      = (c4Store, some .wrongReturnType))
    ∧ (∀ dev : Bool, dispatchRoot dev c4MemberMuts 5 "leak" [] c4Store
      = (c4Store, some (.instanceMembers ["x"])))
    ∧ (∀ (S : Type) (muts : List (String × MutatorDef S)) (fuel : Nat)
        (name : String) (args : List Int) (store : StoreModel S),
        (dispatchRoot true muts fuel name args store).1._state
          = (dispatchRoot false muts fuel name args store).1._state
        ∧ (dispatchRoot true muts fuel name args store).2
          = (dispatchRoot false muts fuel name args store).2
        ∧ (dispatchRoot true muts fuel name args store).1.events.map evCore
          = (dispatchRoot false muts fuel name args store).1.events.map evCore)
    ∧ (∀ r : Option Int, oldDispatchReturnFilter false r = .ok r) := by
  refine ⟨?_, ?_, ?_, ?_⟩
  · intro dev; cases dev <;> rfl
  · intro dev; cases dev <;> rfl
  · intro S muts fuel name args store
    cases hl : lookupFn muts name with
    | none => simp [dispatchRoot, hl]
    | some d =>
      cases hr : runBody muts fuel d.body ⟨store._state, []⟩ with
      | error e => simp [dispatchRoot, hl, hr]
      | ok pr =>
        obtain ⟨ctx2, rv⟩ := pr
        cases rv with
        | true => simp [dispatchRoot, hl, hr]
        | false =>
          cases hm : failIfInstanceMembersExistExceptState ctx2.extraMembers with
          | error e => simp [dispatchRoot, hl, hr, hm]
          | ok u => simp [dispatchRoot, hl, hr, hm, processMutator, setState, evCore]
  · intro r; rfl

/-- The commands table of the C10 scenario: one mutator whose source text is
`setValue(newValue, flag)` (body elided — only the parenthesised parameter
segment is read by `createActionFromArguments`). -/
def c10Muts : List (String × MutatorDef Int) :=
  [("setValue", ⟨"setValue(newValue, flag)", .write (fun _ => 8) .done⟩)]

/-- The store of the C10 scenario right after construction. -/
def c10StoreInit : StoreModel Int :=
  ⟨"myStore", 0, false, 0, [⟨some "myStore", ⟨"@@INIT", []⟩, 0, none⟩]⟩

/-- C10: in the Store variant, a committed commit record's `action.type` is
the bare mutator method name (no `"[storeId] "` prefix) and each supplied
argument is recorded under the key `"[i] argName"` with the name parsed from
the method's textual source — but, against the claim's remaining conjunct,
the record's `storeId` field does not carry the store id: `this.storeId` at
src/src/Store.ts line 153 resolves against the draft this-object, so the
field is undefined (`none`), while the constructor's `@@INIT` event (built on
the store itself, lines 69-73) does carry `some "myStore"` — exposing the
slip. -/
theorem storeMutatorEventShape :
    mkStore false "myStore" [] c10Muts 0 = .ok c10StoreInit
    ∧ dispatchRoot false c10Muts 5 "setValue" [7, 1] c10StoreInit
      = (⟨"myStore", 8, false, 0,
          [⟨some "myStore", ⟨"@@INIT", []⟩, 0, none⟩,
           ⟨none, ⟨"setValue", [("[0] newValue", 7), ("[1] flag", 1)]⟩, 8, none⟩]⟩,
         none)
    ∧ (⟨none, ⟨"setValue", [("[0] newValue", 7), ("[1] flag", 1)]⟩, 8, none⟩ :
        MutatorEvent Int).storeId ≠ some "myStore" :=
  ⟨by rfl, by rfl, by decide⟩

/-- `listFirstMatch` returns index 0 exactly when the pattern is a prefix. -/
theorem listFirstMatch_zero_iff (pat s : List Char) :
    listFirstMatch pat s = some 0 ↔ List.isPrefixOf pat s = true := by
  cases s with
  | nil => cases pat <;> simp [listFirstMatch, List.isPrefixOf, List.isEmpty]
  | cons c t =>
    constructor
    · intro h
      by_cases hp : List.isPrefixOf pat (c :: t) = true
      · exact hp
      · exfalso
        simp only [listFirstMatch, if_neg hp] at h
        cases hm : listFirstMatch pat t with
        | none => rw [hm] at h; simp at h
        | some i => rw [hm] at h; simp at h
    · intro hp
      simp [listFirstMatch, hp]

/-- JavaScript `indexOf(pat) === 0` is exactly the string-prefix test (the
content of `Facade.isActionForThisFacade`'s comparison). -/
theorem jsStrIndexOf_zero_iff (t p : String) :
    jsStrIndexOf t p = 0 ↔ strIsPre p t = true := by
  unfold jsStrIndexOf strIsPre
  cases hm : listFirstMatch p.toList t.toList with
  | none =>
    simp only [hm]
    constructor
    · intro h; exact absurd h (by decide)
    · intro hp
      have h0 := (listFirstMatch_zero_iff p.toList t.toList).mpr hp
      rw [hm] at h0; exact absurd h0 (by simp)
  | some i =>
    simp only [hm]
    constructor
    · intro h
      have hi : i = 0 := by exact_mod_cast h
      exact (listFirstMatch_zero_iff p.toList t.toList).mp (hi ▸ hm)
    · intro hp
      have h0 := (listFirstMatch_zero_iff p.toList t.toList).mpr hp
      rw [hm] at h0
      have hi : i = 0 := by injection h0
      simp [hi]

/-- A facade treats an action as its own iff the `type` field is a string
starting with the exact prefix `"[facadeId] "`. -/
theorem ownsAction_iff (facadeId : String) (t : Option String) :
    isActionForThisFacade facadeId t = true ↔
      ∃ s, t = some s ∧ strIsPre ("[" ++ facadeId ++ "] ") s = true := by
  cases t with
  | none => simp [isActionForThisFacade]
  | some s => simp [isActionForThisFacade, beq_iff_eq, jsStrIndexOf_zero_iff]

/-- C3 counterexample: distinct owner ids alone do not isolate facades.  With
facade A's id `"x] foo"` and facade B's id `"x"` — distinct ids — A's action
type `"[x] foo] m"` starts with B's prefix `"[x] "`, so B's reducer treats
A's action as its own; when B's commands object carries a (legal,
computed-name) method `"foo] m"`, dispatching A's action changes B's
sub-state from 0 to 99. -/
theorem facadeOwnershipGatingCounterexample :
    facadeReducer "x" "B" false
      (commandsInvokerReducer "x" [("foo] m", fun _ _ => (99 : Int))] 0)
      [("A", 0), ("B", 0)]
      ⟨some (createActionName "x] foo" "m"), []⟩
    = .ok [("A", 0), ("B", 99)]
    ∧ isActionForThisFacade "x" (some (createActionName "x] foo" "m")) = true
    ∧ extractState "B" [("A", (0 : Int)), ("B", 0)] = some 0
    ∧ extractState "B" [("A", (0 : Int)), ("B", 99)] = some 99 :=
  ⟨rfl, rfl, rfl, rfl⟩

/-- C3 (amended): a facade's reducer treats an action as its own iff
`action.type` is a string starting with the exact prefix `"[ownerId] "`, and
returns the incoming root state unchanged for every other action; hence, for
two facades A and B sharing one reducer chain such that B's prefix
`"[B] "` is not a prefix of A's action type (in particular whenever the
distinct ids contain no `"] "`), dispatching A's action leaves B's sub-state
— indeed the whole root — unchanged through B's reducer, whatever B's inner
mutator reducer does. -/
theorem facadeOwnershipGating {υ : Type} (A B mName slicePath : String)
    (destroyed : Bool) (mr : Option υ → FAction → Except TyduxError υ)
    (root : List (String × υ)) (payload : List Int)
    (h : strIsPre ("[" ++ B ++ "] ") (createActionName A mName) = false) :
    facadeReducer B slicePath destroyed mr root
      ⟨some (createActionName A mName), payload⟩ = .ok root
    ∧ (∀ t : Option String, isActionForThisFacade B t = true ↔
        ∃ s, t = some s ∧ strIsPre ("[" ++ B ++ "] ") s = true)
    ∧ (∀ action : FAction, isActionForThisFacade B action.type = false →
        facadeReducer B slicePath destroyed mr root action = .ok root) := by
  have hown : isActionForThisFacade B (some (createActionName A mName)) = false := by
    cases hb : isActionForThisFacade B (some (createActionName A mName)) with
    | false => rfl
    | true =>
      obtain ⟨s, hs, hpre⟩ := (ownsAction_iff B _).mp hb
      injection hs with hs2
      rw [← hs2] at hpre
      rw [hpre] at h
      cases h
  refine ⟨?_, ownsAction_iff B, ?_⟩
  · simp [facadeReducer, hown]
  · intro action hfalse
    simp [facadeReducer, hfalse]

/-- C3 witness: two facades with ordinary distinct ids `"counterA"` and
`"counterB"`; B's reducer leaves the root untouched on A's `inc` action. -/
theorem facadeOwnershipGatingWitness :
    facadeReducer "counterB" "B" false
      (commandsInvokerReducer "counterB" [("inc", fun s _ => s + 1)] (0 : Int))
      [("A", 1), ("B", 2)]
      ⟨some (createActionName "counterA" "inc"), []⟩ = .ok [("A", 1), ("B", 2)]
    ∧ (∀ t : Option String, isActionForThisFacade "counterB" t = true ↔
        ∃ s, t = some s ∧ strIsPre ("[" ++ "counterB" ++ "] ") s = true)
    ∧ (∀ action : FAction,
        isActionForThisFacade "counterB" action.type = false →
        facadeReducer "counterB" "B" false
          (commandsInvokerReducer "counterB" [("inc", fun s _ => s + 1)] (0 : Int))
          [("A", 1), ("B", 2)] action = .ok [("A", 1), ("B", 2)]) :=
  facadeOwnershipGating "counterA" "counterB" "inc" "B" false
    (commandsInvokerReducer "counterB" [("inc", fun s _ => s + 1)] (0 : Int))
    [("A", 1), ("B", 2)] [] rfl

/-- C6: initial-state seeding.  Promise case: immediately after construction
the buffered-changes flag is true and both the facade state and the mount
point still hold the pre-existing value (nothing was dispatched yet); after
the promise's continuations run and the queued delivery microtask drains, the
state equals the resolved value and the flag is false.  Literal case: the
seeding action is dispatched synchronously, so before the constructor returns
the state holds the value, nothing is pending and the flag is false.
Producer case: likewise, with the producer invoked exactly once. -/
theorem facadeInitialStateSeeding {σ : Type} (fid : String) (pre v : σ)
    (f : Unit → σ) :
    (hasBufferedStateChanges (mkFacade fid pre (some (.promise v))) = true
     ∧ (mkFacade fid pre (some (.promise v)))._state = pre
     ∧ (mkFacade fid pre (some (.promise v))).mountState = pre
     ∧ (drainDeliveryQueue (resolveInitialStatePromise
          (mkFacade fid pre (some (.promise v)))))._state = v
     ∧ (drainDeliveryQueue (resolveInitialStatePromise
          (mkFacade fid pre (some (.promise v))))).mountState = v
     ∧ hasBufferedStateChanges (drainDeliveryQueue (resolveInitialStatePromise
          (mkFacade fid pre (some (.promise v))))) = false)
    ∧ ((mkFacade fid pre (some (.value v)))._state = v
     ∧ (mkFacade fid pre (some (.value v))).mountState = v
     ∧ hasBufferedStateChanges (mkFacade fid pre (some (.value v))) = false
     ∧ (mkFacade fid pre (some (.value v))).pendingInitialState = none)
    ∧ ((mkFacade fid pre (some (.producer f)))._state = f ()
     ∧ (mkFacade fid pre (some (.producer f))).producerCalls = 1
     ∧ hasBufferedStateChanges (mkFacade fid pre (some (.producer f))) = false
     ∧ (mkFacade fid pre (some (.producer f))).pendingInitialState = none) := by
  refine ⟨⟨?_, ?_, ?_, ?_, ?_, ?_⟩, ⟨?_, ?_, ?_, ?_⟩, ⟨?_, ?_, ?_, ?_⟩⟩ <;>
    simp [mkFacade, dispatchInitialStateAction, resolveInitialStatePromise,
      drainDeliveryQueue, hasBufferedStateChanges]

/-- C8 counterexample: `destroy()` is not idempotent — a second call on a
freshly constructed facade emits the one-shot destroyed notification a second
time (the destroyed subject is never completed and the body carries no
guard), so the doubly-destroyed facade differs observably from the
once-destroyed one. -/
theorem destroyNotIdempotentCounterexample :
    (destroy (destroy (mkFacade "f8" (0 : Int) none))).destroyedEmissions = 2
    ∧ (destroy (mkFacade "f8" (0 : Int) none)).destroyedEmissions = 1
    ∧ destroy (destroy (mkFacade "f8" (0 : Int) none))
        ≠ destroy (mkFacade "f8" (0 : Int) none) :=
  ⟨rfl, rfl, by decide⟩

/-- C8 (amended): `destroy()` unsubscribes from the mount point, frees the
mount point's path, marks the instance destroyed, completes the
change-notification stream, emits the destroyed notification and deregisters
the facade — but it is not idempotently guarded: every call repeats all six
effects, so a second call emits the destroyed notification again (only the
destroyed flag and the stream completion are idempotent by nature). -/
theorem destroyEffects {σ : Type} (m : FacadeModel σ) :
    (destroy m).mountSubscribed = false
    ∧ (destroy m).freeSlicePathCalls = m.freeSlicePathCalls + 1
    ∧ (destroy m).destroyedState = true
    ∧ (destroy m).stateSubjectCompleted = true
    ∧ (destroy m).destroyedEmissions = m.destroyedEmissions + 1
    ∧ (destroy m).registered = false
    ∧ (destroy (destroy m)).destroyedEmissions = m.destroyedEmissions + 2
    ∧ (destroy (destroy m)).freeSlicePathCalls = m.freeSlicePathCalls + 2
    ∧ (destroy (destroy m)).destroyedState = (destroy m).destroyedState
    ∧ (destroy (destroy m)).stateSubjectCompleted
        = (destroy m).stateSubjectCompleted := by
  refine ⟨rfl, rfl, rfl, rfl, rfl, rfl, ?_, ?_, rfl, rfl⟩ <;> simp [destroy]

/-- JavaScript `===` is transitive (on the `JsVal` model). -/
theorem jsEq_trans : ∀ a b c : JsVal, jsEq a b = true → jsEq b c = true →
    jsEq a c = true := by
  intro a b c h1 h2
  cases a <;> cases b <;> cases c <;> simp_all [jsEq]

/-- Shallow array comparison is transitive. -/
theorem isShallowEquals_trans : ∀ a b c : List JsVal,
    isShallowEquals a b = true → isShallowEquals b c = true →
    isShallowEquals a c = true := by
  intro a
  induction a with
  | nil =>
    intro b c h1 h2
    cases b with
    | nil =>
      cases c with
      | nil => rfl
      | cons z zs => simp [isShallowEquals] at h2
    | cons y ys => simp [isShallowEquals] at h1
  | cons x xs ih =>
    intro b c h1 h2
    cases b with
    | nil => simp [isShallowEquals] at h1
    | cons y ys =>
      cases c with
      | nil => simp [isShallowEquals] at h2
      | cons z zs =>
        simp only [isShallowEquals, Bool.and_eq_true] at h1 h2 ⊢
        exact ⟨jsEq_trans x y z h1.1 h2.1, ih ys zs h1.2 h2.2⟩

/-- The select comparator (shallow for array pairs, `===` otherwise) is
transitive. -/
theorem selectCompare_trans : ∀ a b c : JsVal, selectCompare a b = true →
    selectCompare b c = true → selectCompare a c = true := by
  intro a b c h1 h2
  cases a with
  | arr ra ea =>
    cases b with
    | arr rb eb =>
      cases c with
      | arr rc ec =>
        simp only [selectCompare] at h1 h2 ⊢
        exact isShallowEquals_trans ea eb ec h1 h2
      | nil => simp [selectCompare, jsEq] at h2
      | prim p => simp [selectCompare, jsEq] at h2
      | obj r => simp [selectCompare, jsEq] at h2
    | nil => simp [selectCompare, jsEq] at h1
    | prim p => simp [selectCompare, jsEq] at h1
    | obj r => simp [selectCompare, jsEq] at h1
  | nil => cases b <;> simp_all [selectCompare, jsEq]
  | prim p => cases b <;> simp_all [selectCompare, jsEq]
  | obj r => cases b <;> simp_all [selectCompare, jsEq]

/-- Dropping an element that compares equal to its predecessor, anywhere in
the middle of the input, does not change `dedupFrom`'s output. -/
theorem dedupFrom_mid {α : Type} (cmp : α → α → Bool)
    (htrans : ∀ a b c, cmp a b = true → cmp b c = true → cmp a c = true)
    (x y : α) (hxy : cmp x y = true) :
    ∀ (t l2 : List α) (last : α),
    dedupFrom cmp last (t ++ x :: y :: l2) = dedupFrom cmp last (t ++ x :: l2) := by
  intro t
  induction t with
  | nil =>
    intro l2 last
    simp only [List.nil_append, dedupFrom]
    cases hlx : cmp last x with
    | true =>
      have hly : cmp last y = true := htrans last x y hlx hxy
      simp [dedupFrom, hly]
    | false => simp [dedupFrom, hxy]
  | cons a t2 ih =>
    intro l2 last
    simp only [List.cons_append, dedupFrom]
    cases hla : cmp last a with
    | true => simp [ih]
    | false => simp [ih]

/-- The same drop property for the full `distinctUntilChanged`. -/
theorem dedup_mid {α : Type} (cmp : α → α → Bool)
    (htrans : ∀ a b c, cmp a b = true → cmp b c = true → cmp a c = true)
    (x y : α) (hxy : cmp x y = true) (l1 l2 : List α) :
    dedup cmp (l1 ++ x :: y :: l2) = dedup cmp (l1 ++ x :: l2) := by
  cases l1 with
  | nil => simp [dedup, dedupFrom, hxy]
  | cons a t => simp [dedup, dedupFrom_mid cmp htrans x y hxy t l2 a]

/-- Everything `dedupFrom` emits differs from what preceded it. -/
theorem consecOk_dedupFrom {α : Type} (cmp : α → α → Bool) :
    ∀ (l : List α) (last : α),
    consecOk cmp (last :: dedupFrom cmp last l) = true := by
  intro l
  induction l with
  | nil => intro last; rfl
  | cons x xs ih =>
    intro last
    simp only [dedupFrom]
    cases hlx : cmp last x with
    | true => simpa using ih last
    | false => simp [consecOk, hlx, ih x]

/-- No two consecutive emissions of `distinctUntilChanged` compare equal. -/
theorem consecOk_dedup {α : Type} (cmp : α → α → Bool) (l : List α) :
    consecOk cmp (dedup cmp l) = true := by
  cases l with
  | nil => rfl
  | cons x xs => simpa [dedup] using consecOk_dedupFrom cmp xs x

/-- C7: the select change stream emits only on change.  A commit whose
selected value compares equal to the previous commit's selected value —
`===` in general, shallow element-wise comparison when both are arrays —
produces no emission: dropping it from the commit sequence leaves the
`select` output (and hence the `selectNonNil` output) unchanged; moreover no
two consecutive emissions of the output ever compare equal. -/
theorem selectDeduplicates {σ : Type} (events1 events2 : List σ) (a b : σ)
    (sel : σ → JsVal) (h : selectCompare (sel a) (sel b) = true) :
    selectList (events1 ++ a :: b :: events2) sel
      = selectList (events1 ++ a :: events2) sel
    ∧ selectNonNilList (events1 ++ a :: b :: events2) sel
      = selectNonNilList (events1 ++ a :: events2) sel
    ∧ consecOk selectCompare (selectList (events1 ++ a :: b :: events2) sel)
      = true := by
  have key : selectList (events1 ++ a :: b :: events2) sel
      = selectList (events1 ++ a :: events2) sel := by
    simp only [selectList, List.map_append, List.map_cons]
    exact dedup_mid selectCompare selectCompare_trans (sel a) (sel b) h
      (events1.map sel) (events2.map sel)
  exact ⟨key, by simp [selectNonNilList, key], consecOk_dedup selectCompare _⟩

/-- C7 witness: two commits carrying distinct array objects with identical
elements (reference-distinct but shallow-equal) — the second commit adds no
emission. -/
theorem selectDeduplicatesWitness :
    selectList ([JsVal.prim 0] ++ JsVal.arr 1 [.prim 1, .prim 2]
        :: JsVal.arr 2 [.prim 1, .prim 2] :: [JsVal.prim 5]) (fun v => v)
      = selectList ([JsVal.prim 0] ++ JsVal.arr 1 [.prim 1, .prim 2]
        :: [JsVal.prim 5]) (fun v => v)
    ∧ selectNonNilList ([JsVal.prim 0] ++ JsVal.arr 1 [.prim 1, .prim 2]
        :: JsVal.arr 2 [.prim 1, .prim 2] :: [JsVal.prim 5]) (fun v => v)
      = selectNonNilList ([JsVal.prim 0] ++ JsVal.arr 1 [.prim 1, .prim 2]
        :: [JsVal.prim 5]) (fun v => v)
    ∧ consecOk selectCompare
        (selectList ([JsVal.prim 0] ++ JsVal.arr 1 [.prim 1, .prim 2]
          :: JsVal.arr 2 [.prim 1, .prim 2] :: [JsVal.prim 5]) (fun v => v))
      = true :=
  selectDeduplicates [JsVal.prim 0] [JsVal.prim 5]
    (JsVal.arr 1 [.prim 1, .prim 2]) (JsVal.arr 2 [.prim 1, .prim 2])
    (fun v => v) rfl

/-- The reference-allocation run of `n` mount-point notifications: each
delivery is a fresh object, so the delivered list is `obj r, obj (r+1), …`. -/
theorem notifyN_closed (n : Nat) : ∀ (r : Nat) (l : List JsVal),
    notifyN n ⟨r, l⟩ = ⟨r + n, l ++ (List.range' r n).map JsVal.obj⟩ := by
  induction n with
  | zero => intro r l; simp [notifyN]
  | succ m ih =>
    intro r l
    simp only [notifyN, onMountPointChange]
    rw [ih (r + 1) (l ++ [JsVal.obj r])]
    simp [List.range']
    omega

/-- Successive fresh object references never compare equal, under any
comparator that is reference equality on plain objects. -/
theorem consecOk_obj_range' (cmp : JsVal → JsVal → Bool)
    (hcmp : ∀ i j : Nat, cmp (.obj i) (.obj j) = (i == j)) :
    ∀ (n r : Nat), consecOk cmp ((List.range' r n).map JsVal.obj) = true := by
  intro n
  induction n with
  | zero => intro r; rfl
  | succ m ih =>
    intro r
    cases m with
    | zero => rfl
    | succ k =>
      have hne : ((r : Nat) == r + 1) = false := by simp
      have htl := ih (r + 1)
      simp only [List.range', List.map] at htl ⊢
      simp [consecOk, hcmp, hne, htl]

/-- A list with no consecutive comparator-equal elements passes
`distinctUntilChanged` untouched. -/
theorem dedupFrom_eq_self {α : Type} (cmp : α → α → Bool) :
    ∀ (l : List α) (last : α), consecOk cmp (last :: l) = true →
    dedupFrom cmp last l = l := by
  intro l
  induction l with
  | nil => intro last h; rfl
  | cons x xs ih =>
    intro last h
    simp only [consecOk, Bool.and_eq_true] at h
    have hc : cmp last x = false := by
      cases hcc : cmp last x
      · rfl
      · rw [hcc] at h; simp at h
    simp [dedupFrom, hc, ih x h.2]

/-- `dedup` is the identity on lists with no consecutive equal elements. -/
theorem dedup_eq_self {α : Type} (cmp : α → α → Bool) (l : List α)
    (h : consecOk cmp l = true) : dedup cmp l = l := by
  cases l with
  | nil => rfl
  | cons x xs => simp [dedup, dedupFrom_eq_self cmp xs x h]

/-- C9: every mount-point change notification hands the change stream a fresh
shallow copy (`Object.assign` allocates a new object), so after `n` committed
root changes the delivered states are `n` pairwise reference-distinct
objects: no two successive deliveries are `===`-equal, and a selector-less
`select()` emits all `n` of them — one emission per committed root change,
whatever the underlying sub-state values were. -/
theorem freshCopyDeliveryAlwaysEmits (n : Nat) :
    (notifyN n initNotifyModel).delivered = (List.range' 0 n).map JsVal.obj
    ∧ consecOk jsEq (notifyN n initNotifyModel).delivered = true
    ∧ selectList (notifyN n initNotifyModel).delivered (fun v => v)
        = (notifyN n initNotifyModel).delivered
    ∧ (selectList (notifyN n initNotifyModel).delivered (fun v => v)).length
        = n := by
  have hrun : notifyN n initNotifyModel
      = ⟨0 + n, [] ++ (List.range' 0 n).map JsVal.obj⟩ :=
    notifyN_closed n 0 []
  have hdel : (notifyN n initNotifyModel).delivered
      = (List.range' 0 n).map JsVal.obj := by rw [hrun]; simp
  have hsel : consecOk selectCompare ((List.range' 0 n).map JsVal.obj) = true :=
    consecOk_obj_range' selectCompare (fun i j => rfl) n 0
  have hid : ((List.range' 0 n).map JsVal.obj).map (fun v => v)
      = (List.range' 0 n).map JsVal.obj := List.map_id' _
  refine ⟨hdel, ?_, ?_, ?_⟩
  · rw [hdel]
    exact consecOk_obj_range' jsEq (fun i j => rfl) n 0
  · rw [hdel]
    simp only [selectList, hid]
    exact dedup_eq_self selectCompare _ hsel
  · rw [hdel]
    simp only [selectList, hid]
    rw [dedup_eq_self selectCompare _ hsel]
    simp

end Tydux
